import Mathlib

/-!
Shallow embedding of the blackjack round-resolution engine:
`src/main.py` and `src/entities/basic_strategy_player.py`.

The repository files `blackjack/card.py`, `blackjack/hand.py`, `blackjack/deck.py`,
`entities/dealer.py` and the three strategy tables are not part of the sources
available here; their definitions below are modelled from the specification and
are marked `Modelled from the spec:` in their doc comments.  Python `int`
arithmetic is embedded as `Int`/`Nat`; the bet amounts, which Python mixes with
floats (`current_bet *= 1.5`, `calculate_bet`), are embedded as `ℚ`.
Fallible operations (drawing from an exhausted shoe, indexing an empty hand)
return `Option`; the unbounded `while` loops are given explicit fuel.
-/

namespace Blackjack

/-- Modelled from the spec: `blackjack/card.py` is absent.  §3: a card has a
rank (`"2"`..`"10"`, `"jack"`, `"queen"`, `"king"`, `"ace"`), a numeric
blackjack value (ace = 11 by default) and a Hi-Lo-style count weight.
Suit is irrelevant to value and omitted.  Python compares cards with `==`
(`card == Card('ace', 'spades')`, `cards[0] == cards[1]`); per §3/§9 this is
structural equality on rank, embedded below as comparison of the `rank` field. -/
structure Card where
  rank : String
  value : Int
  countValue : Int
deriving DecidableEq

/-- Modelled from the spec: `blackjack/hand.py` is absent.  §3: a hand holds an
ordered card list, a running numeric `value` and the number of aces currently
counted as 11; `Hand()` starts empty. -/
structure Hand where
  cards : List Card := []
  value : Int := 0
  aces : Nat := 0
deriving DecidableEq

/-- Modelled from the spec: `blackjack/deck.py` is absent.  §3/§4.1: a shoe with
an ordered card list (drawn from the end via `deck.cards.pop()`), a deck-count
multiplier and a `cards_left` counter.  The random outcomes of future
reshuffles are supplied by the `pending` oracle, one entry per reshuffle. -/
structure Deck where
  cards : List Card
  numberOfDecks : Nat
  cardsLeft : Int
  pending : List (List Card) := []
deriving DecidableEq

/-- Modelled from the spec: §4.1, `isEmpty() <-> cardsLeft == 0`. -/
def Deck.isEmpty (d : Deck) : Bool := d.cardsLeft == 0

/-- Modelled from the spec: §4.1, when empty the shoe is fully regenerated and
shuffled.  The shuffled card list comes from the `pending` oracle (an exhausted
oracle yields an empty shoe, making the following draw fail). -/
def Deck.shuffle (d : Deck) : Deck :=
  match d.pending with
  | [] => { d with cards := [], cardsLeft := 0, pending := [] }
  | f :: rest => { d with cards := f, cardsLeft := (f.length : Int), pending := rest }

/-- Player/dealer actions `'h'`, `'s'`, `'d'` from the strategy tables. -/
inductive Act where
  | h
  | s
  | d
deriving DecidableEq

/-- State of `BasicPlayer` (`basic_strategy_player.py`, `__init__`, lines 30-53).
In Python `count` exists only when counting is enabled; it is embedded as an
always-present field that is only read when `cardCounting` is set. -/
structure BasicPlayer where
  hand : Hand := {}
  name : String
  isDone : Bool := false
  currentBet : ℚ := 0
  totalBets : ℚ := 0
  totalEarnings : ℚ := 0
  rounds : Nat := 0
  wins : Nat := 0
  draws : Nat := 0
  losses : Nat := 0
  busts : Nat := 0
  stands : Nat := 0
  cardCounting : Bool := false
  count : Int := 0
deriving DecidableEq

/-- `BasicPlayer.__init__(name, card_counting)`. -/
def BasicPlayer.init (name : String) (card_counting : Bool) : BasicPlayer :=
  { name := name, cardCounting := card_counting }

/-- The ace-adjustment loop of `hit_me` (lines 89-91):
`while aces > 0 and value > 21: value -= 10; aces -= 1`. -/
def reduceAces : Int → Nat → Int × Nat
  | v, 0 => (v, 0)
  | v, a + 1 => if v > 21 then reduceAces (v - 10) a else (v, a + 1)

/-- `BasicPlayer.hit_me(deck)` (lines 55-100): reshuffle (and reset the count)
when the shoe is empty, pop the last card, append it to the hand, update the
count, decrement `cards_left`, add the card value, bump `aces` for an ace, run
the ace-adjustment loop, and auto-stop on bust or two-card 21. -/
def BasicPlayer.hit_me (p0 : BasicPlayer) (deck0 : Deck) : Option (BasicPlayer × Deck) :=
  let deck1 := if deck0.isEmpty then deck0.shuffle else deck0
  let count1 : Int := if deck0.isEmpty && p0.cardCounting then 0 else p0.count
  match deck1.cards.getLast? with
  | none => none
  | some card =>
    let cards2 := p0.hand.cards ++ [card]
    let count2 := if p0.cardCounting then count1 + card.countValue else count1
    let deck2 := { deck1 with cards := deck1.cards.dropLast, cardsLeft := deck1.cardsLeft - 1 }
    let value2 := p0.hand.value + card.value
    let aces2 := if card.rank == "ace" then p0.hand.aces + 1 else p0.hand.aces
    let va := reduceAces value2 aces2
    let done2 : Bool :=
      if va.1 > 21 then true
      else if cards2.length == 2 && va.1 == 21 then true
      else p0.isDone
    some ({ p0 with hand := { cards := cards2, value := va.1, aces := va.2 },
                    count := count2, isDone := done2 }, deck2)

/-- Modelled from the spec: `entities/dealer.py` is absent.  §3: the dealer owns
a hand, an `is_done` flag and `up_card`, a reference to its first dealt card. -/
structure Dealer where
  hand : Hand := {}
  isDone : Bool := false
  upCard : Option Card := none
deriving DecidableEq

/-- `BasicPlayer.get_other_decision(dealer)` (lines 102-130) together with the
table searches `_search_soft_table` / `_search_hard_table` (lines 287-319),
which key on `(hand.value, dealer.up_card.rank)`.  The tables themselves are
external configuration (spec §4.3) and are passed in as functions; an unset
`up_card` makes the Python attribute access fail, embedded as `none`. -/
def get_other_decision (soft hard : Int → String → Act) (p : BasicPlayer) (dl : Dealer) :
    Option Act :=
  let deck_length := p.hand.cards.length
  if p.hand.aces > 0 then
    match dl.upCard with
    | none => none
    | some u =>
      let decision := soft p.hand.value u.rank
      some (if decision = Act.d ∧ deck_length > 2 then Act.h else decision)
  else
    match dl.upCard with
    | none => none
    | some u =>
      let decision := hard p.hand.value u.rank
      some (if decision = Act.d ∧ deck_length > 2 then Act.h else decision)

/-- `BasicPlayer.get_split_decision(dealer)` (lines 132-151) with
`_search_split_table` (lines 279-285): Python reads `cards[0]` and `cards[1]`
unconditionally (failing on a shorter hand, embedded as `none`), then consults
the split table only for a two-card matching pair; `true` embeds `'y'`. -/
def get_split_decision (splitT : String → String → Bool) (p : BasicPlayer) (dl : Dealer) :
    Option Bool :=
  match p.hand.cards with
  | c0 :: c1 :: rest =>
    let first_two_match := c0.rank == c1.rank
    if (c0 :: c1 :: rest).length == 2 && first_two_match then
      match dl.upCard with
      | none => none
      | some u => some (splitT c0.rank u.rank)
    else some false
  | _ => none

/-- `BasicPlayer.doubles()` (lines 153-160): `total_bets += current_bet`,
then `current_bet *= 2`, then `is_done = True`. -/
def BasicPlayer.doubles (p : BasicPlayer) : BasicPlayer :=
  { p with totalBets := p.totalBets + p.currentBet,
           currentBet := p.currentBet * 2,
           isDone := true }

/-- `BasicPlayer.round_outcome(win, draw, loss)` (lines 212-242). -/
def BasicPlayer.round_outcome (p0 : BasicPlayer) (win draw loss : Bool) : BasicPlayer :=
  let p := { p0 with rounds := p0.rounds + 1 }
  let p :=
    if win then
      { p with wins := p.wins + 1, totalEarnings := p.totalEarnings + p.currentBet }
    else if loss then
      { p with losses := p.losses + 1, totalEarnings := p.totalEarnings - p.currentBet }
    else if draw then
      { p with draws := p.draws + 1 }
    else p
  { p with currentBet := 0, isDone := false }

/-- `BasicPlayer.gets_blackjack()` (lines 162-169): `current_bet *= 1.5`,
`is_done = True`, then `round_outcome(win=True)`. -/
def BasicPlayer.gets_blackjack (p : BasicPlayer) : BasicPlayer :=
  let p := { p with currentBet := p.currentBet * (1.5 : ℚ), isDone := true }
  p.round_outcome true false false

/-- `BasicPlayer.goes_bust()` (lines 171-177): `busts += 1`, then
`round_outcome(loss=True)`. -/
def BasicPlayer.goes_bust (p : BasicPlayer) : BasicPlayer :=
  let p := { p with busts := p.busts + 1 }
  p.round_outcome false false true

/-- `BasicPlayer.stand()` (lines 179-184). -/
def BasicPlayer.stand (p : BasicPlayer) : BasicPlayer :=
  { p with isDone := true, stands := p.stands + 1 }

/-- `BasicPlayer.start_round(deck, bet)` (lines 186-209): set the bet, add it to
`total_bets`, draw two cards. -/
def BasicPlayer.start_round (p : BasicPlayer) (deck : Deck) (bet : ℚ) :
    Option (BasicPlayer × Deck) :=
  let p := { p with currentBet := bet, totalBets := p.totalBets + bet }
  match p.hit_me deck with
  | none => none
  | some (p, deck) => p.hit_me deck

/-- `BasicPlayer.split()` (lines 244-259): a fresh `BasicPlayer("Dummy")`
(card counting not enabled) seeded with the current bet. -/
def BasicPlayer.split (p : BasicPlayer) : BasicPlayer :=
  let split_player := BasicPlayer.init "Dummy" false
  { split_player with currentBet := p.currentBet,
                      totalBets := p.currentBet,
                      totalEarnings := 0 }

/-- `BasicPlayer.add_totals(other)` (lines 261-277), for a present `other`. -/
def BasicPlayer.add_totals (p other : BasicPlayer) : BasicPlayer :=
  { p with totalBets := p.totalBets + other.totalBets,
           totalEarnings := p.totalEarnings + other.totalEarnings,
           rounds := p.rounds + other.rounds,
           wins := p.wins + other.wins,
           draws := p.draws + other.draws,
           losses := p.losses + other.losses,
           busts := p.busts + other.busts,
           stands := p.stands + other.stands }

/-- `BasicPlayer.calculate_bet(zen_count, bet_unit, cards_left)` (lines 321-347),
with Python float arithmetic embedded as `ℚ`. -/
def BasicPlayer.calculate_bet (_self : BasicPlayer) (zen_count : Int) (bet_unit : ℚ)
    (cards_left : Int) : ℚ :=
  let decks_remaining : ℚ := (cards_left : ℚ) / 52
  let true_count : ℚ :=
    if decks_remaining > 0 then (zen_count : ℚ) / decks_remaining else (zen_count : ℚ)
  let bet := bet_unit * true_count
  max bet 0

/-- Modelled from the spec: §4.5, the dealer hits below 17 and stands at or
above (`entities/dealer.py` is absent). -/
def Dealer.get_decision (dl : Dealer) : Act :=
  if dl.hand.value < 17 then Act.h else Act.s

/-- Modelled from the spec: `entities/dealer.py` is absent.  The dealer draw
mirrors the shared hand mechanics of §4.2 (append, value update, ace
adjustment, auto-stop on bust or two-card 21).  `main.py` calls it as
`dealer.hit_me(deck, player)`; per §4.4 the passed player's count accumulates
the drawn card's weight and is reset when the draw triggers a reshuffle. -/
def Dealer.hit_me (dl : Dealer) (deck0 : Deck) (p0 : BasicPlayer) :
    Option (Dealer × Deck × BasicPlayer) :=
  let deck1 := if deck0.isEmpty then deck0.shuffle else deck0
  let count1 : Int := if deck0.isEmpty && p0.cardCounting then 0 else p0.count
  match deck1.cards.getLast? with
  | none => none
  | some card =>
    let cards2 := dl.hand.cards ++ [card]
    let count2 := if p0.cardCounting then count1 + card.countValue else count1
    let deck2 := { deck1 with cards := deck1.cards.dropLast, cardsLeft := deck1.cardsLeft - 1 }
    let value2 := dl.hand.value + card.value
    let aces2 := if card.rank == "ace" then dl.hand.aces + 1 else dl.hand.aces
    let va := reduceAces value2 aces2
    let done2 : Bool :=
      if va.1 > 21 then true
      else if cards2.length == 2 && va.1 == 21 then true
      else dl.isDone
    some ({ dl with hand := { cards := cards2, value := va.1, aces := va.2 }, isDone := done2 },
          deck2, { p0 with count := count2 })

/-- Modelled from the spec: §3/§4.6, `dealer.start_round(deck, player)` deals
the dealer exactly two cards and makes the first one `up_card`. -/
def Dealer.start_round (dl : Dealer) (deck : Deck) (p : BasicPlayer) :
    Option (Dealer × Deck × BasicPlayer) :=
  match dl.hit_me deck p with
  | none => none
  | some (dl1, deck1, p1) =>
    let dl1 := { dl1 with upCard := dl1.hand.cards.head? }
    dl1.hit_me deck1 p1

/-- Modelled from the spec: `dealer.stand()` marks the dealer done. -/
def Dealer.stand (dl : Dealer) : Dealer := { dl with isDone := true }

/-- Modelled from the spec: §3, the dealer keeps no persistent statistics, so
`dealer.goes_bust()` has no observable effect on the embedded state. -/
def Dealer.goes_bust (dl : Dealer) : Dealer := dl

/-! ## The round engine (`main.py`) -/

/-- The split block of `init_round` (`main.py` lines 40-48): pop the last card
of the player's hand, append it to the dummy's hand, draw one fresh card for
each, and patch the two `value` fields by the moved card's value unless the
moved card is an ace. -/
def splitBlock (p : BasicPlayer) (dummy : BasicPlayer) (dk : Deck) :
    Option (BasicPlayer × BasicPlayer × Deck) :=
  match p.hand.cards.getLast? with
  | none => none
  | some card =>
    let p := { p with hand := { p.hand with cards := p.hand.cards.dropLast } }
    let dummy := { dummy with hand := { dummy.hand with cards := dummy.hand.cards ++ [card] } }
    match p.hit_me dk with
    | none => none
    | some (p, dk) =>
      match dummy.hit_me dk with
      | none => none
      | some (dummy, dk) =>
        if card.rank == "ace" then some (p, dummy, dk)
        else
          some ({ p with hand := { p.hand with value := p.hand.value - card.value } },
                { dummy with hand := { dummy.hand with value := dummy.hand.value + card.value } },
                dk)

/-- The ace-split recompute at the top of `round` (`main.py` lines 71-75):
when a dummy is present and the hand's first card is an ace, force
`value = 11`, `aces = 1` and hit once. -/
def aceRecheck (p : BasicPlayer) (dk : Deck) (dummyPresent : Bool) :
    Option (BasicPlayer × Deck) :=
  if dummyPresent then
    match p.hand.cards.head? with
    | none => none
    | some c =>
      if c.rank == "ace" then
        BasicPlayer.hit_me { p with hand := { p.hand with value := 11, aces := 1 } } dk
      else some (p, dk)
  else some (p, dk)

/-- The player decision loop of `round` (`main.py` lines 77-88):
`while not player.is_done`, consult `get_other_decision` and hit / stand /
hit-then-double.  The unbounded loop is given fuel; exhausting it is `none`. -/
def playerLoop (soft hard : Int → String → Act) :
    Nat → BasicPlayer → Dealer → Deck → Option (BasicPlayer × Deck)
  | 0, p, _, dk => if p.isDone then some (p, dk) else none
  | fuel + 1, p, dl, dk =>
    if p.isDone then some (p, dk)
    else
      match get_other_decision soft hard p dl with
      | none => none
      | some Act.h =>
        match p.hit_me dk with
        | none => none
        | some (p2, dk2) => playerLoop soft hard fuel p2 dl dk2
      | some Act.s => playerLoop soft hard fuel p.stand dl dk
      | some Act.d =>
        match p.hit_me dk with
        | none => none
        | some (p2, dk2) => playerLoop soft hard fuel p2.doubles dl dk2

/-- The dealer decision loop of `round` (`main.py` lines 92-99):
`while not dealer.is_done`, hit or stand; dealer draws go through
`dealer.hit_me(deck, player)`. -/
def dealerLoop : Nat → Dealer → Deck → BasicPlayer → Option (Dealer × Deck × BasicPlayer)
  | 0, dl, dk, p => if dl.isDone then some (dl, dk, p) else none
  | fuel + 1, dl, dk, p =>
    if dl.isDone then some (dl, dk, p)
    else
      match dl.get_decision with
      | Act.h =>
        match dl.hit_me dk p with
        | none => none
        | some (dl2, dk2, p2) => dealerLoop fuel dl2 dk2 p2
      | Act.s => dealerLoop fuel dl.stand dk p
      | Act.d => dealerLoop fuel dl dk p

/-- The dealer phase of `round` (`main.py` line 91): the dealer loop runs only
under `player.hand.value < 21`. -/
def dealerPhase (p : BasicPlayer) (dl : Dealer) (dk : Deck) (fuel : Nat) :
    Option (Dealer × Deck × BasicPlayer) :=
  if p.hand.value < 21 then dealerLoop fuel dl dk p else some (dl, dk, p)

/-- The settlement chain of `round` (`main.py` lines 101-122): player bust,
then dealer bust, then natural blackjack, then raw value comparison. -/
def settle (p : BasicPlayer) (dl : Dealer) : BasicPlayer × Dealer :=
  if p.hand.value > 21 then (p.goes_bust, dl)
  else if dl.hand.value > 21 then (p.round_outcome true false false, dl.goes_bust)
  else if p.hand.value = 21 ∧ p.hand.cards.length = 2 then (p.gets_blackjack, dl)
  else if p.hand.value > dl.hand.value then (p.round_outcome true false false, dl)
  else if p.hand.value < dl.hand.value then (p.round_outcome false false true, dl)
  else (p.round_outcome false true false, dl)

/-- `round(player, dealer, deck, dummy)` (`main.py` lines 60-136): ace-split
recompute, player loop, guarded dealer loop, settlement, then clear both hands
and reset `dealer.is_done`.  `dummyPresent` embeds `dummy is not None`. -/
def round (soft hard : Int → String → Act) (p : BasicPlayer) (dl : Dealer) (dk : Deck)
    (dummyPresent : Bool) (fuel : Nat) : Option (BasicPlayer × Dealer × Deck) :=
  match aceRecheck p dk dummyPresent with
  | none => none
  | some (p1, dk1) =>
    match playerLoop soft hard fuel p1 dl dk1 with
    | none => none
    | some (p2, dk2) =>
      match dealerPhase p2 dl dk2 fuel with
      | none => none
      | some (dl3, dk3, p3) =>
        let pd := settle p3 dl3
        some ({ pd.1 with hand := {} }, { pd.2 with hand := {}, isDone := false }, dk3)

/-- `init_round(player, dealer, deck)` (`main.py` lines 9-57): bet sizing
(count-adjusted when counting), opening deals, split check, and the one or two
`round` calls. -/
def init_round (soft hard : Int → String → Act) (splitT : String → String → Bool)
    (p : BasicPlayer) (dl : Dealer) (dk : Deck) (fuel : Nat) :
    Option (BasicPlayer × Dealer × Deck) :=
  let bet : ℚ := 1000
  let startRes :=
    if p.cardCounting then p.start_round dk (p.calculate_bet p.count bet dk.cardsLeft)
    else p.start_round dk bet
  match startRes with
  | none => none
  | some (p1, dk1) =>
    match dl.start_round dk1 p1 with
    | none => none
    | some (dl2, dk2, p2) =>
      match get_split_decision splitT p2 dl2 with
      | none => none
      | some true =>
        let dummy := p2.split
        match splitBlock p2 dummy dk2 with
        | none => none
        | some (p3, dummy3, dk3) =>
          match round soft hard dummy3 dl2 dk3 true fuel with
          | none => none
          | some (dummy4, dl4, dk4) =>
            round soft hard (p3.add_totals dummy4) dl4 dk4 true fuel
      | some false => round soft hard p2 dl2 dk2 false fuel

/-! ## Derived notions used by the claims -/

/-- Sum of the face values of a card list (claim C1 wording). -/
def sumValues (cards : List Card) : Int := (cards.map Card.value).sum

/-- Number of aces in a card list (claim C1 wording). -/
def numAces (cards : List Card) : Nat := cards.countP (fun c => c.rank == "ace")

/-- Comparison definition written from the claim wording (C1), not from the
source: a hand's stored `value`/`aces` match the value derived from its card
sequence by the ace-adjustment rule (sum of face values, one ace dropped from
11 to 1 while the total exceeds 21 and an ace counted as 11 remains). -/
def handConsistent (h : Hand) : Prop :=
  (h.value, h.aces) = reduceAces (sumValues h.cards) (numAces h.cards)

instance (h : Hand) : Decidable (handConsistent h) := by
  unfold handConsistent; infer_instance

/-! ## Sample cards used in concrete scenarios -/

/-- An ace (value 11, Hi-Lo-style weight -1). -/
def cardAce : Card := ⟨"ace", 11, -1⟩

/-- A five (value 5, weight +1). -/
def card5 : Card := ⟨"5", 5, 1⟩

/-- A seven (value 7, weight 0). -/
def card7 : Card := ⟨"7", 7, 0⟩

/-- An eight (value 8, weight 0). -/
def card8 : Card := ⟨"8", 8, 0⟩

/-- A ten (value 10, weight -1). -/
def card10 : Card := ⟨"10", 10, -1⟩

/-! ## Helper lemmas -/

theorem reduceAces_succ_def (v : Int) (a : Nat) :
    reduceAces v (a + 1) = if v > 21 then reduceAces (v - 10) a else (v, a + 1) := rfl

/-- Adding a card's (nonnegative) value and ace count commutes with running the
ace-adjustment loop first: the incremental update of `hit_me` computes the same
reduced pair as a recomputation over the whole raw sum. -/
theorem reduceAces_add (c : Int) (hc : 0 ≤ c) (dA : Nat) :
    ∀ (a : Nat) (v : Int),
      reduceAces (v + c) (a + dA) =
        reduceAces ((reduceAces v a).1 + c) ((reduceAces v a).2 + dA) := by
  intro a
  induction a with
  | zero => intro v; rfl
  | succ k ih =>
    intro v
    by_cases hv : v > 21
    · have hvc : v + c > 21 := by omega
      have e1 : k + 1 + dA = k + dA + 1 := by omega
      have e2 : v + c - 10 = v - 10 + c := by ring
      have h3 : reduceAces v (k + 1) = reduceAces (v - 10) k := by
        rw [reduceAces_succ_def, if_pos hv]
      rw [e1, reduceAces_succ_def, if_pos hvc, e2, ih (v - 10), h3]
    · have h3 : reduceAces v (k + 1) = (v, k + 1) := by
        rw [reduceAces_succ_def, if_neg hv]
      rw [h3]

/-- `hit_me` changes only the hand, the count and the done flag: every
statistics and betting field of the player is untouched. -/
theorem hit_me_stats (p : BasicPlayer) (dk : Deck) (q : BasicPlayer) (dk2 : Deck)
    (hres : p.hit_me dk = some (q, dk2)) :
    q.rounds = p.rounds ∧ q.wins = p.wins ∧ q.draws = p.draws ∧ q.losses = p.losses ∧
    q.stands = p.stands ∧ q.busts = p.busts ∧ q.currentBet = p.currentBet ∧
    q.totalBets = p.totalBets ∧ q.totalEarnings = p.totalEarnings ∧
    q.cardCounting = p.cardCounting ∧ q.name = p.name := by
  simp only [BasicPlayer.hit_me] at hres
  split at hres
  · exact absurd hres (by simp)
  · simp only [Option.some.injEq, Prod.mk.injEq] at hres
    obtain ⟨hq, -⟩ := hres
    subst hq
    exact ⟨rfl, rfl, rfl, rfl, rfl, rfl, rfl, rfl, rfl, rfl, rfl⟩

/-- `dealer.hit_me(deck, player)` changes nothing of the player but the count. -/
theorem dealer_hit_me_player_stats (dl : Dealer) (dk : Deck) (p : BasicPlayer)
    (dl2 : Dealer) (dk2 : Deck) (p2 : BasicPlayer)
    (hres : dl.hit_me dk p = some (dl2, dk2, p2)) :
    p2.rounds = p.rounds ∧ p2.wins = p.wins ∧ p2.draws = p.draws ∧ p2.losses = p.losses ∧
    p2.stands = p.stands ∧ p2.busts = p.busts ∧ p2.currentBet = p.currentBet ∧
    p2.totalBets = p.totalBets ∧ p2.totalEarnings = p.totalEarnings ∧
    p2.hand = p.hand ∧ p2.isDone = p.isDone := by
  simp only [Dealer.hit_me] at hres
  split at hres
  · exact absurd hres (by simp)
  · simp only [Option.some.injEq, Prod.mk.injEq] at hres
    obtain ⟨-, -, hp⟩ := hres
    subst hp
    exact ⟨rfl, rfl, rfl, rfl, rfl, rfl, rfl, rfl, rfl, rfl, rfl⟩

/-! ## Claim C5 -/

/-- C5: `round_outcome` with exactly one of win/draw/loss selected increments
`rounds` and the matching counter, adds the bet to `totalEarnings` on a win,
subtracts it on a loss, leaves it unchanged on a draw, and in every case
resets `currentBet` to 0 and `isDone` to false as the terminal step. -/
theorem round_outcome_spec (p : BasicPlayer) (w d l : Bool)
    (hone : (w = true ∧ d = false ∧ l = false) ∨ (w = false ∧ d = true ∧ l = false) ∨
            (w = false ∧ d = false ∧ l = true)) :
    (p.round_outcome w d l).rounds = p.rounds + 1 ∧
    (p.round_outcome w d l).wins = p.wins + (if w then 1 else 0) ∧
    (p.round_outcome w d l).draws = p.draws + (if d then 1 else 0) ∧
    (p.round_outcome w d l).losses = p.losses + (if l then 1 else 0) ∧
    (p.round_outcome w d l).totalEarnings =
      p.totalEarnings + (if w then p.currentBet else 0) - (if l then p.currentBet else 0) ∧
    (p.round_outcome w d l).currentBet = 0 ∧
    (p.round_outcome w d l).isDone = false := by
  rcases hone with ⟨rfl, rfl, rfl⟩ | ⟨rfl, rfl, rfl⟩ | ⟨rfl, rfl, rfl⟩ <;>
    simp [BasicPlayer.round_outcome]

/-- Witness for C5: a win outcome on a fresh player with a bet of 10. -/
theorem round_outcome_spec_witness :
    (({ BasicPlayer.init "W" false with currentBet := 10 }).round_outcome
        true false false).rounds
      = ({ BasicPlayer.init "W" false with currentBet := 10 }).rounds + 1 ∧
    (({ BasicPlayer.init "W" false with currentBet := 10 }).round_outcome
        true false false).wins
      = ({ BasicPlayer.init "W" false with currentBet := 10 }).wins +
          (if true then 1 else 0) ∧
    (({ BasicPlayer.init "W" false with currentBet := 10 }).round_outcome
        true false false).draws
      = ({ BasicPlayer.init "W" false with currentBet := 10 }).draws +
          (if false then 1 else 0) ∧
    (({ BasicPlayer.init "W" false with currentBet := 10 }).round_outcome
        true false false).losses
      = ({ BasicPlayer.init "W" false with currentBet := 10 }).losses +
          (if false then 1 else 0) ∧
    (({ BasicPlayer.init "W" false with currentBet := 10 }).round_outcome
        true false false).totalEarnings
      = ({ BasicPlayer.init "W" false with currentBet := 10 }).totalEarnings +
          (if true then ({ BasicPlayer.init "W" false with currentBet := 10 }).currentBet
           else 0) -
          (if false then ({ BasicPlayer.init "W" false with currentBet := 10 }).currentBet
           else 0) ∧
    (({ BasicPlayer.init "W" false with currentBet := 10 }).round_outcome
        true false false).currentBet = 0 ∧
    (({ BasicPlayer.init "W" false with currentBet := 10 }).round_outcome
        true false false).isDone = false :=
  round_outcome_spec { BasicPlayer.init "W" false with currentBet := 10 } true false false
    (Or.inl ⟨rfl, rfl, rfl⟩)

/-! ## Claim C7 -/

/-- C7: for every count, nonnegative bet unit and nonnegative cards-left,
`calculate_bet` returns `max(0, betUnit * trueCount)` with
`trueCount = count / (cardsLeft / 52)` when `cardsLeft > 0` and
`trueCount = count` otherwise. -/
theorem calculate_bet_spec (self : BasicPlayer) (zen_count : Int) (bet_unit : ℚ)
    (cards_left : Int) (hb : 0 ≤ bet_unit) (hc : 0 ≤ cards_left) :
    self.calculate_bet zen_count bet_unit cards_left =
      max 0 (bet_unit *
        (if 0 < cards_left then (zen_count : ℚ) / ((cards_left : ℚ) / 52)
         else (zen_count : ℚ))) := by
  have hiff : ((cards_left : ℚ) / 52 > 0) ↔ (0 < cards_left) := by
    rw [gt_iff_lt, div_pos_iff]
    constructor
    · rintro (⟨h1, -⟩ | ⟨-, h2⟩)
      · exact_mod_cast h1
      · norm_num at h2
    · intro hpos
      exact Or.inl ⟨by exact_mod_cast hpos, by norm_num⟩
  simp only [BasicPlayer.calculate_bet, hiff, max_comm]

/-- Witness for C7 at the spec's example: count 4, bet unit 10, 104 cards left
give a true count of 2 and a bet of 20. -/
theorem calculate_bet_spec_witness :
    (BasicPlayer.init "W" true).calculate_bet 4 10 104 =
      max 0 (10 * (if (0 : Int) < 104 then (4 : ℚ) / ((104 : ℚ) / 52) else (4 : ℚ))) ∧
    max 0 (10 * (if (0 : Int) < 104 then (4 : ℚ) / ((104 : ℚ) / 52) else (4 : ℚ))) = 20 :=
  ⟨calculate_bet_spec (BasicPlayer.init "W" true) 4 10 104 (by norm_num) (by norm_num),
   by norm_num⟩

/-! ## Claim C10 -/

/-- C10: `doubles` modifies only `current_bet` (doubled), `total_bets`
(increased by the pre-double bet) and `is_done` (set); it leaves `stands` and
`busts` unchanged, and among the player operations only `stand` increments
`stands`. -/
theorem doubles_frame (p : BasicPlayer) :
    p.doubles = { p with totalBets := p.totalBets + p.currentBet,
                         currentBet := p.currentBet * 2, isDone := true } ∧
    p.doubles.stands = p.stands ∧
    p.doubles.busts = p.busts ∧
    p.stand = { p with isDone := true, stands := p.stands + 1 } ∧
    p.goes_bust.stands = p.stands ∧
    p.gets_blackjack.stands = p.stands ∧
    (∀ w d l, (p.round_outcome w d l).stands = p.stands) ∧
    (∀ dk q dk2, p.hit_me dk = some (q, dk2) → q.stands = p.stands) := by
  refine ⟨rfl, rfl, rfl, rfl, rfl, rfl, ?_, ?_⟩
  · intro w d l
    cases w <;> cases d <;> cases l <;> rfl
  · intro dk q dk2 hres
    exact (hit_me_stats p dk q dk2 hres).2.2.2.2.1

/-! ## Claim C1 -/

theorem sumValues_append_single (cards : List Card) (c : Card) :
    sumValues (cards ++ [c]) = sumValues cards + c.value := by
  simp [sumValues]

theorem numAces_append_single (cards : List Card) (c : Card) :
    numAces (cards ++ [c]) = numAces cards + (if c.rank == "ace" then 1 else 0) := by
  simp only [numAces, List.countP_append, List.countP_cons, List.countP_nil]
  cases h : (c.rank == "ace") <;> simp [h]

/-- C1 (amended): `hit_me` preserves the hand invariant: on a hand whose
`value`/`aces` fields match the values derived from its card sequence by the
ace-adjustment rule, a draw (with nonnegative card values in the shoe and its
reshuffle oracle) keeps them matching.  The split-related patching of
`init_round` and `round` does not preserve the invariant (see the
counterexample). -/
theorem hit_me_consistent (p : BasicPlayer) (d : Deck) (q : BasicPlayer) (d2 : Deck)
    (hcons : handConsistent p.hand)
    (hpos : ∀ c ∈ d.cards, 0 ≤ c.value)
    (hpos2 : ∀ f ∈ d.pending, ∀ c ∈ f, 0 ≤ c.value)
    (hres : p.hit_me d = some (q, d2)) : handConsistent q.hand := by
  simp only [BasicPlayer.hit_me] at hres
  split at hres
  · exact absurd hres (by simp)
  case _ card heq =>
    have hcv : 0 ≤ card.value := by
      by_cases hde : d.isEmpty
      · rw [if_pos hde] at heq
        unfold Deck.shuffle at heq
        match hp : d.pending with
        | [] => rw [hp] at heq; simp at heq
        | f :: rest =>
          rw [hp] at heq
          have hmem : card ∈ f := List.mem_of_mem_getLast? (Option.mem_def.mpr heq)
          exact hpos2 f (by rw [hp]; exact List.mem_cons_self f rest) card hmem
      · rw [if_neg hde] at heq
        have hmem : card ∈ d.cards := List.mem_of_mem_getLast? (Option.mem_def.mpr heq)
        exact hpos card hmem
    simp only [Option.some.injEq, Prod.mk.injEq] at hres
    obtain ⟨hq, -⟩ := hres
    subst hq
    unfold handConsistent at hcons ⊢
    simp only [sumValues_append_single, numAces_append_single]
    rw [reduceAces_add card.value hcv _ (numAces p.hand.cards) (sumValues p.hand.cards),
        ← hcons]
    have haces : (if card.rank == "ace" then p.hand.aces + 1 else p.hand.aces) =
        p.hand.aces + (if card.rank == "ace" then 1 else 0) := by
      cases h : (card.rank == "ace") <;> simp [h]
    rw [haces]

/-- Sample player for the C1 witness: one draw of a five on an empty hand. -/
def c1wP : BasicPlayer := BasicPlayer.init "W" false

/-- Sample one-card shoe for the C1 witness. -/
def c1wDeck : Deck := ⟨[card5], 6, 1, []⟩

/-- Player state after the C1 witness draw. -/
def c1wP2 : BasicPlayer := { c1wP with hand := ⟨[card5], 5, 0⟩ }

/-- Shoe after the C1 witness draw. -/
def c1wDeck2 : Deck := ⟨[], 6, 0, []⟩

/-- Witness for C1 (amended): the invariant holds concretely after drawing a
five onto an empty, consistent hand. -/
theorem hit_me_consistent_witness : handConsistent c1wP2.hand :=
  hit_me_consistent c1wP c1wDeck c1wP2 c1wDeck2 (by decide) (by decide) (by decide)
    (by decide)

/-- Concrete player for the C1 counterexample: a consistently valued pair of
aces about to split. -/
def c1xP : BasicPlayer :=
  { BasicPlayer.init "Player" false with hand := ⟨[cardAce, cardAce], 12, 1⟩ }

/-- Concrete shoe for the C1 counterexample. -/
def c1xDeck : Deck := ⟨[card7, card5], 6, 2, []⟩

/-- Counterexample to C1 as stated: after the split card transfer of
`init_round` (pair of aces, fresh draws 5 and 7), the primary hand holds
cards `[ace, 5]` with stored value 17 and one ace counted as 11, while the
value derived from the card sequence by the ace-adjustment rule is 16 - the
popped ace's discarded 11/1 accounting is left inside `value`.  The stored
fields do not equal the derived ones, refuting the invariant for the split
operations. -/
theorem hit_me_consistent_counterexample :
    Option.map (fun r => decide (handConsistent r.1.hand))
      (splitBlock c1xP c1xP.split c1xDeck) = some false := by decide

/-! ## Claim C6 -/

/-- C6 (amended): the count tracks the counting player's own draws: a
`hit_me` on a non-empty shoe adds the drawn card's count weight, a `hit_me`
that reshuffles resets the count to 0 before adding the drawn card's weight,
and a player without counting never changes it.  The split dummy is created
with card counting disabled and holds no reference to the original player, so
the dummy's draws are not accumulated into the original player's count and a
reshuffle triggered by a dummy draw does not reset it (see the
counterexample). -/
theorem hit_me_count (p : BasicPlayer) (d : Deck) (q : BasicPlayer) (d2 : Deck)
    (hres : p.hit_me d = some (q, d2)) :
    (p.cardCounting = true → d.isEmpty = false →
      ∀ cs c, d.cards = cs ++ [c] → q.count = p.count + c.countValue) ∧
    (p.cardCounting = true → d.isEmpty = true →
      ∀ f pend cs c, d.pending = f :: pend → f = cs ++ [c] → q.count = 0 + c.countValue) ∧
    (p.cardCounting = false → q.count = p.count) ∧
    (∀ r : BasicPlayer, r.split.cardCounting = false) := by
  simp only [BasicPlayer.hit_me] at hres
  split at hres
  · exact absurd hres (by simp)
  case _ card heq =>
    simp only [Option.some.injEq, Prod.mk.injEq] at hres
    obtain ⟨hq, -⟩ := hres
    subst hq
    refine ⟨?_, ?_, ?_, fun r => rfl⟩
    · intro hcc hde cs c hcards
      rw [if_neg (by simp [hde])] at heq
      rw [hcards, List.getLast?_concat] at heq
      injection heq with hcc2
      subst hcc2
      simp [hcc, hde]
    · intro hcc hde f pend cs c hpend hf
      rw [if_pos hde] at heq
      unfold Deck.shuffle at heq
      rw [hpend] at heq
      simp only at heq
      rw [hf, List.getLast?_concat] at heq
      injection heq with hcc2
      subst hcc2
      simp [hcc, hde]
    · intro hcc
      simp [hcc]

/-- Counting player for the C6 witness, holding a count of 3. -/
def c6wP : BasicPlayer := { BasicPlayer.init "W" true with count := 3 }

/-- One-card shoe for the C6 witness. -/
def c6wDeck : Deck := ⟨[card5], 6, 1, []⟩

/-- Player after the C6 witness draw: count 3 + 1. -/
def c6wP2 : BasicPlayer := { c6wP with hand := ⟨[card5], 5, 0⟩, count := 4 }

/-- Shoe after the C6 witness draw. -/
def c6wDeck2 : Deck := ⟨[], 6, 0, []⟩

/-- Witness for C6 (amended), at a concrete counting draw of a five (weight
+1) on a count of 3. -/
theorem hit_me_count_witness :
    (c6wP.cardCounting = true → c6wDeck.isEmpty = false →
      ∀ cs c, c6wDeck.cards = cs ++ [c] → c6wP2.count = c6wP.count + c.countValue) ∧
    (c6wP.cardCounting = true → c6wDeck.isEmpty = true →
      ∀ f pend cs c, c6wDeck.pending = f :: pend → f = cs ++ [c] →
        c6wP2.count = 0 + c.countValue) ∧
    (c6wP.cardCounting = false → c6wP2.count = c6wP.count) ∧
    (∀ r : BasicPlayer, r.split.cardCounting = false) :=
  hit_me_count c6wP c6wDeck c6wP2 c6wDeck2 (by decide)

/-- Counting player for the C6 counterexample: a pair of eights, about to
split, with count 0. -/
def c6xP : BasicPlayer :=
  { BasicPlayer.init "Player" true with hand := ⟨[card8, card8], 16, 0⟩ }

/-- Two-card shoe for the C6 counterexample; both cards have weight +1. -/
def c6xDeck : Deck := ⟨[card5, card5], 6, 2, []⟩

/-- Counterexample to C6 as stated: in the split block both the player and the
dummy draw a five of count weight +1 (total drawn weight 2), but the player's
count ends at 1 - the dummy's draw is not accumulated, because `split()`
creates the dummy without card counting and without any reference back to the
original player. -/
theorem hit_me_count_counterexample :
    Option.map (fun r => r.1.count) (splitBlock c6xP c6xP.split c6xDeck) = some 1 ∧
    (c6xDeck.cards.map Card.countValue).sum = 2 := by
  constructor <;> decide

/-! ## Claim C8 -/

/-- Table consulted by `get_other_decision` (claim C8 wording): the soft table
when the hand has an ace counted as 11, otherwise the hard table. -/
def tableDecision (soft hard : Int → String → Act) (p : BasicPlayer) (u : Card) : Act :=
  if p.hand.aces > 0 then soft p.hand.value u.rank else hard p.hand.value u.rank

/-- C8: `get_other_decision` consults the soft-totals table when the hand has
an ace counted as 11 and the hard-totals table otherwise, downgrades a
returned double to hit whenever the hand has more than 2 cards, and hence only
ever returns double on a two-card hand. -/
theorem get_other_decision_spec (soft hard : Int → String → Act) (p : BasicPlayer)
    (dl : Dealer) (u : Card) (hu : dl.upCard = some u) :
    get_other_decision soft hard p dl =
      some (if tableDecision soft hard p u = Act.d ∧ p.hand.cards.length > 2 then Act.h
            else tableDecision soft hard p u) ∧
    (∀ r, get_other_decision soft hard p dl = some r → r = Act.d →
      p.hand.cards.length ≤ 2) := by
  have hmain : get_other_decision soft hard p dl =
      some (if tableDecision soft hard p u = Act.d ∧ p.hand.cards.length > 2 then Act.h
            else tableDecision soft hard p u) := by
    unfold get_other_decision tableDecision
    by_cases ha : p.hand.aces > 0 <;> simp [ha, hu]
  refine ⟨hmain, ?_⟩
  intro r hr hrd
  rw [hmain] at hr
  simp only [Option.some.injEq] at hr
  by_contra hlen
  have h2 : p.hand.cards.length > 2 := by omega
  by_cases hcond : tableDecision soft hard p u = Act.d ∧ p.hand.cards.length > 2
  · rw [if_pos hcond] at hr
    exact absurd (hr.trans hrd) (by decide)
  · rw [if_neg hcond] at hr
    exact hcond ⟨hr.trans hrd, h2⟩

/-- Concrete always-double table for the C8 witness. -/
def alwaysDouble : Int → String → Act := fun _ _ => Act.d

/-- Concrete two-card hard hand for the C8 witness. -/
def c8wP : BasicPlayer :=
  { BasicPlayer.init "W" false with hand := ⟨[card5, card5], 10, 0⟩ }

/-- Concrete dealer for the C8 witness, showing a ten. -/
def c8wDealer : Dealer := { hand := ⟨[card10, card7], 17, 0⟩, upCard := some card10 }

/-- Witness for C8: on a two-card hard 10 against an up-card ten with a table
that always says double, the decision is the table's double (no downgrade). -/
theorem get_other_decision_spec_witness :
    get_other_decision alwaysDouble alwaysDouble c8wP c8wDealer =
      some (if tableDecision alwaysDouble alwaysDouble c8wP card10 = Act.d ∧
               c8wP.hand.cards.length > 2 then Act.h
            else tableDecision alwaysDouble alwaysDouble c8wP card10) ∧
    (∀ r, get_other_decision alwaysDouble alwaysDouble c8wP c8wDealer = some r →
      r = Act.d → c8wP.hand.cards.length ≤ 2) :=
  get_other_decision_spec alwaysDouble alwaysDouble c8wP c8wDealer card10 rfl

/-! ## Claim C2 -/

/-- Strategy table that always stands, for concrete runs. -/
def alwaysStand : Int → String → Act := fun _ _ => Act.s

/-- A six (value 6, weight +1). -/
def card6 : Card := ⟨"6", 6, 1⟩

/-- Concrete split dummy hand for the C2 exhibit: an eight and a five. -/
def c2Dummy : BasicPlayer :=
  { BasicPlayer.init "Dummy" false with hand := ⟨[card8, card5], 13, 0⟩,
                                        currentBet := 1000, totalBets := 1000 }

/-- Concrete dealer for the C2 exhibit: a dealt 17 showing a ten. -/
def c2Dealer : Dealer := { hand := ⟨[card10, card7], 17, 0⟩, isDone := false,
                           upCard := some card10 }

/-- Concrete shoe for the C2 exhibit (no draws are needed). -/
def c2Deck : Deck := ⟨[], 6, 0, []⟩

/-- C2 exhibit: `round` ends by replacing the dealer's hand with a fresh empty
`Hand` and resetting `dealer.is_done` (`main.py` lines 131-136).  Running the
dummy's round of a split (`init_round` line 51) therefore hands the primary
round a dealer with an empty hand and `is_done` false, so the primary hand's
dealer loop re-draws a fresh dealer hand; only `up_card` survives.  Here the
dummy's round completes against a dealt dealer 17, after which the dealer
state is an empty hand, not done, with the up-card still set. -/
theorem round_clears_dealer_between_hands :
    Option.map (fun r => (r.2.1.hand, r.2.1.isDone, r.2.1.upCard))
        (round alwaysStand alwaysStand c2Dummy c2Dealer c2Deck true 3) =
      some (({} : Hand), false, some card10) ∧
    c2Dealer.hand.cards ≠ [] := by
  constructor <;> decide

/-! ## Claim C3 -/

/-- The dealer loop only ever exits through `dealer.is_done`. -/
theorem dealerLoop_isDone :
    ∀ (fuel : Nat) (dl : Dealer) (dk : Deck) (p : BasicPlayer) (dl2 : Dealer)
      (dk2 : Deck) (p2 : BasicPlayer),
      dealerLoop fuel dl dk p = some (dl2, dk2, p2) → dl2.isDone = true := by
  intro fuel
  induction fuel with
  | zero =>
    intro dl dk p dl2 dk2 p2 h
    unfold dealerLoop at h
    split at h
    case isTrue hd =>
      simp only [Option.some.injEq, Prod.mk.injEq] at h
      obtain ⟨h1, -⟩ := h
      subst h1
      exact hd
    case isFalse hd => exact absurd h (by simp)
  | succ f ih =>
    intro dl dk p dl2 dk2 p2 h
    unfold dealerLoop at h
    split at h
    case isTrue hd =>
      simp only [Option.some.injEq, Prod.mk.injEq] at h
      obtain ⟨h1, -⟩ := h
      subst h1
      exact hd
    case isFalse hd =>
      split at h
      case h_1 =>
        split at h
        · exact absurd h (by simp)
        · exact ih _ _ _ _ _ _ h
      case h_2 => exact ih _ _ _ _ _ _ h
      case h_3 => exact ih _ _ _ _ _ _ h

/-- C3 (amended): the dealer decision loop is entered exactly when the player
hand's final value is strictly below 21 (and skipped whenever it is 21 or
more, including an exact 21): for a dealer that is not yet done, the dealer
phase ends with the dealer done precisely when the player's value is below
21. -/
theorem dealerPhase_entered_iff (p : BasicPlayer) (dl : Dealer) (dk : Deck)
    (fuel : Nat) (dl2 : Dealer) (dk2 : Deck) (p2 : BasicPlayer)
    (hnd : dl.isDone = false)
    (hres : dealerPhase p dl dk fuel = some (dl2, dk2, p2)) :
    dl2.isDone = true ↔ p.hand.value < 21 := by
  unfold dealerPhase at hres
  split at hres
  case isTrue hlt =>
    exact ⟨fun _ => hlt, fun _ => dealerLoop_isDone fuel dl dk p dl2 dk2 p2 hres⟩
  case isFalse hge =>
    simp only [Option.some.injEq, Prod.mk.injEq] at hres
    obtain ⟨h1, -⟩ := hres
    subst h1
    constructor
    · intro hd
      rw [hnd] at hd
      exact absurd hd (by decide)
    · intro hlt
      exact absurd hlt hge

/-- Busted player for the C3 witness. -/
def c3wP : BasicPlayer :=
  { BasicPlayer.init "W" false with hand := ⟨[card10, card8, card5], 23, 0⟩ }

/-- Not-yet-done dealer for the C3 witness. -/
def c3wDealer : Dealer := { hand := ⟨[card10], 10, 0⟩, isDone := false,
                            upCard := some card10 }

/-- Shoe for the C3 witness. -/
def c3wDeck : Deck := ⟨[], 6, 0, []⟩

/-- Witness for C3 (amended): with a busted player (value 23) the dealer phase
leaves the dealer not done, matching 23 < 21 being false. -/
theorem dealerPhase_entered_iff_witness :
    c3wDealer.isDone = true ↔ c3wP.hand.value < 21 :=
  dealerPhase_entered_iff c3wP c3wDealer c3wDeck 1 c3wDealer c3wDeck c3wP rfl
    (by decide)

/-- Player finishing at exactly 21 for the C3 counterexample. -/
def c3xP : BasicPlayer :=
  { BasicPlayer.init "Player" false with hand := ⟨[card10, card5, card6], 21, 0⟩ }

/-- Dealer at 15 (obliged to hit under house rules) for the C3 counterexample. -/
def c3xDealer : Dealer := { hand := ⟨[card10, card5], 15, 0⟩, isDone := false,
                            upCard := some card10 }

/-- Shoe with a card available for the C3 counterexample. -/
def c3xDeck : Deck := ⟨[card5], 6, 1, []⟩

/-- Counterexample to C3 as stated: the player finishes at exactly 21 (which
is ≤ 21), the dealer sits at 15 and is not done, yet the dealer phase returns
the dealer completely untouched - the dealer decision loop is skipped, because
the code guards it with `value < 21`, not `value <= 21`. -/
theorem dealerPhase_at_21_counterexample :
    dealerPhase c3xP c3xDealer c3xDeck 5 = some (c3xDealer, c3xDeck, c3xP) ∧
    c3xP.hand.value = 21 ∧ c3xDealer.isDone = false ∧ c3xDealer.hand.value < 17 := by
  refine ⟨by decide, by decide, by decide, by decide⟩

/-! ## Claim C4 -/

/-- C4: settlement evaluates outcomes in the fixed order player-bust (loss
with a bust recorded, regardless of the dealer - in particular when both
bust), then dealer-bust (win), then natural blackjack (win paying one and a
half times the bet), then value comparison with equal values drawing. -/
theorem settle_precedence (p : BasicPlayer) (dl : Dealer) :
    (p.hand.value > 21 →
      (settle p dl).1.losses = p.losses + 1 ∧ (settle p dl).1.busts = p.busts + 1 ∧
      (settle p dl).1.wins = p.wins ∧ (settle p dl).1.draws = p.draws ∧
      (settle p dl).1.totalEarnings = p.totalEarnings - p.currentBet) ∧
    (p.hand.value ≤ 21 → dl.hand.value > 21 →
      (settle p dl).1.wins = p.wins + 1 ∧
      (settle p dl).1.totalEarnings = p.totalEarnings + p.currentBet) ∧
    (p.hand.value ≤ 21 → dl.hand.value ≤ 21 → p.hand.value = 21 →
      p.hand.cards.length = 2 →
      (settle p dl).1.wins = p.wins + 1 ∧
      (settle p dl).1.totalEarnings = p.totalEarnings + p.currentBet * (1.5 : ℚ)) ∧
    (p.hand.value ≤ 21 → dl.hand.value ≤ 21 →
      ¬(p.hand.value = 21 ∧ p.hand.cards.length = 2) →
      (p.hand.value > dl.hand.value →
        (settle p dl).1.wins = p.wins + 1 ∧
        (settle p dl).1.totalEarnings = p.totalEarnings + p.currentBet) ∧
      (p.hand.value < dl.hand.value →
        (settle p dl).1.losses = p.losses + 1 ∧
        (settle p dl).1.totalEarnings = p.totalEarnings - p.currentBet) ∧
      (p.hand.value = dl.hand.value →
        (settle p dl).1.draws = p.draws + 1 ∧
        (settle p dl).1.totalEarnings = p.totalEarnings)) := by
  refine ⟨?_, ?_, ?_, ?_⟩
  · intro h1
    unfold settle
    rw [if_pos h1]
    exact ⟨rfl, rfl, rfl, rfl, rfl⟩
  · intro h1 h2
    unfold settle
    rw [if_neg (by omega), if_pos h2]
    exact ⟨rfl, rfl⟩
  · intro h1 h2 h3 h4
    unfold settle
    rw [if_neg (by omega), if_neg (by omega), if_pos ⟨h3, h4⟩]
    exact ⟨rfl, rfl⟩
  · intro h1 h2 h3
    refine ⟨?_, ?_, ?_⟩
    · intro h5
      unfold settle
      rw [if_neg (by omega), if_neg (by omega), if_neg h3, if_pos h5]
      exact ⟨rfl, rfl⟩
    · intro h5
      unfold settle
      rw [if_neg (by omega), if_neg (by omega), if_neg h3, if_neg (by omega),
          if_pos h5]
      exact ⟨rfl, rfl⟩
    · intro h5
      unfold settle
      rw [if_neg (by omega), if_neg (by omega), if_neg h3, if_neg (by omega),
          if_neg (by omega)]
      exact ⟨rfl, rfl⟩

/-! ## Claim C9 -/

/-- The player decision loop only moves cards and bets: the four outcome
counters are untouched by hits, stands and doubles. -/
theorem playerLoop_counters (soft hard : Int → String → Act) :
    ∀ (fuel : Nat) (p : BasicPlayer) (dl : Dealer) (dk : Deck) (q : BasicPlayer)
      (dk2 : Deck),
      playerLoop soft hard fuel p dl dk = some (q, dk2) →
      q.rounds = p.rounds ∧ q.wins = p.wins ∧ q.draws = p.draws ∧
      q.losses = p.losses := by
  intro fuel
  induction fuel with
  | zero =>
    intro p dl dk q dk2 h
    unfold playerLoop at h
    split at h
    · simp only [Option.some.injEq, Prod.mk.injEq] at h
      obtain ⟨h1, -⟩ := h
      subst h1
      exact ⟨rfl, rfl, rfl, rfl⟩
    · exact absurd h (by simp)
  | succ f ih =>
    intro p dl dk q dk2 h
    unfold playerLoop at h
    split at h
    · simp only [Option.some.injEq, Prod.mk.injEq] at h
      obtain ⟨h1, -⟩ := h
      subst h1
      exact ⟨rfl, rfl, rfl, rfl⟩
    · split at h
      · exact absurd h (by simp)
      · split at h
        · exact absurd h (by simp)
        · rename_i p2 dk3 heq
          have hs := hit_me_stats p dk p2 dk3 heq
          have hr := ih p2 dl dk3 q dk2 h
          exact ⟨hr.1.trans hs.1, hr.2.1.trans hs.2.1, hr.2.2.1.trans hs.2.2.1,
                 hr.2.2.2.trans hs.2.2.2.1⟩
      · have hr := ih p.stand dl dk q dk2 h
        exact ⟨hr.1, hr.2.1, hr.2.2.1, hr.2.2.2⟩
      · split at h
        · exact absurd h (by simp)
        · rename_i p2 dk3 heq
          have hs := hit_me_stats p dk p2 dk3 heq
          have hr := ih p2.doubles dl dk3 q dk2 h
          exact ⟨hr.1.trans hs.1, hr.2.1.trans hs.2.1, hr.2.2.1.trans hs.2.2.1,
                 hr.2.2.2.trans hs.2.2.2.1⟩

/-- Dealer draws never change the player's outcome counters (only the count). -/
theorem dealerLoop_player_counters :
    ∀ (fuel : Nat) (dl : Dealer) (dk : Deck) (p : BasicPlayer) (dl2 : Dealer)
      (dk2 : Deck) (p2 : BasicPlayer),
      dealerLoop fuel dl dk p = some (dl2, dk2, p2) →
      p2.rounds = p.rounds ∧ p2.wins = p.wins ∧ p2.draws = p.draws ∧
      p2.losses = p.losses := by
  intro fuel
  induction fuel with
  | zero =>
    intro dl dk p dl2 dk2 p2 h
    unfold dealerLoop at h
    split at h
    · simp only [Option.some.injEq, Prod.mk.injEq] at h
      obtain ⟨-, -, h3⟩ := h
      subst h3
      exact ⟨rfl, rfl, rfl, rfl⟩
    · exact absurd h (by simp)
  | succ f ih =>
    intro dl dk p dl2 dk2 p2 h
    unfold dealerLoop at h
    split at h
    · simp only [Option.some.injEq, Prod.mk.injEq] at h
      obtain ⟨-, -, h3⟩ := h
      subst h3
      exact ⟨rfl, rfl, rfl, rfl⟩
    · split at h
      · split at h
        · exact absurd h (by simp)
        · rename_i dl3 dk3 p3 heq
          have hs := dealer_hit_me_player_stats dl dk p dl3 dk3 p3 heq
          have hr := ih dl3 dk3 p3 dl2 dk2 p2 h
          exact ⟨hr.1.trans hs.1, hr.2.1.trans hs.2.1, hr.2.2.1.trans hs.2.2.1,
                 hr.2.2.2.trans hs.2.2.2.1⟩
      · exact ih _ _ _ _ _ _ h
      · exact ih _ _ _ _ _ _ h

/-- The guarded dealer phase never changes the player's outcome counters. -/
theorem dealerPhase_player_counters (p : BasicPlayer) (dl : Dealer) (dk : Deck)
    (fuel : Nat) (dl2 : Dealer) (dk2 : Deck) (p2 : BasicPlayer)
    (hres : dealerPhase p dl dk fuel = some (dl2, dk2, p2)) :
    p2.rounds = p.rounds ∧ p2.wins = p.wins ∧ p2.draws = p.draws ∧
    p2.losses = p.losses := by
  unfold dealerPhase at hres
  split at hres
  · exact dealerLoop_player_counters fuel dl dk p dl2 dk2 p2 hres
  · simp only [Option.some.injEq, Prod.mk.injEq] at hres
    obtain ⟨-, -, h3⟩ := hres
    subst h3
    exact ⟨rfl, rfl, rfl, rfl⟩

/-- Every settlement branch increments `rounds` and exactly one of the three
outcome counters. -/
theorem settle_counts (p : BasicPlayer) (dl : Dealer) :
    (settle p dl).1.rounds = p.rounds + 1 ∧
    (settle p dl).1.wins + (settle p dl).1.draws + (settle p dl).1.losses =
      p.wins + p.draws + p.losses + 1 := by
  unfold settle
  split_ifs <;> refine ⟨rfl, ?_⟩ <;>
    simp [BasicPlayer.goes_bust, BasicPlayer.gets_blackjack,
          BasicPlayer.round_outcome] <;>
    omega

/-- C9: a completed round on the non-split path preserves
`rounds = wins + draws + losses`: every settlement path increments `rounds`
exactly once together with exactly one of the three outcome counters. -/
theorem round_counter_invariant (soft hard : Int → String → Act) (p : BasicPlayer)
    (dl : Dealer) (dk : Deck) (fuel : Nat) (p2 : BasicPlayer) (dl2 : Dealer)
    (dk2 : Deck)
    (hinv : p.rounds = p.wins + p.draws + p.losses)
    (hres : round soft hard p dl dk false fuel = some (p2, dl2, dk2)) :
    p2.rounds = p2.wins + p2.draws + p2.losses := by
  unfold round at hres
  have hace : aceRecheck p dk false = some (p, dk) := rfl
  simp only [hace] at hres
  split at hres
  · exact absurd hres (by simp)
  · rename_i q dk3 hpl
    split at hres
    · exact absurd hres (by simp)
    · rename_i dl3 dk4 p3 hdp
      simp only [Option.some.injEq, Prod.mk.injEq] at hres
      obtain ⟨h1, -, -⟩ := hres
      subst h1
      obtain ⟨hq1, hq2, hq3, hq4⟩ := playerLoop_counters soft hard fuel p dl dk q dk3 hpl
      obtain ⟨hp1, hp2, hp3, hp4⟩ :=
        dealerPhase_player_counters q dl dk3 fuel dl3 dk4 p3 hdp
      obtain ⟨hs1, hs2⟩ := settle_counts p3 dl3
      show (settle p3 dl3).1.rounds =
        (settle p3 dl3).1.wins + (settle p3 dl3).1.draws + (settle p3 dl3).1.losses
      omega

/-- Concrete player for the C9 witness: a dealt 17 with a bet of 1000. -/
def c9wP : BasicPlayer :=
  { BasicPlayer.init "W" false with hand := ⟨[card10, card7], 17, 0⟩,
                                    currentBet := 1000, totalBets := 1000 }

/-- Concrete dealer for the C9 witness: a dealt 17 as well. -/
def c9wDealer : Dealer := { hand := ⟨[card10, card7], 17, 0⟩, isDone := false,
                            upCard := some card10 }

/-- Concrete shoe for the C9 witness. -/
def c9wDeck : Deck := ⟨[], 6, 0, []⟩

/-- Player state after the C9 witness round: stood on 17, drew against the
dealer's 17. -/
def c9wP2 : BasicPlayer :=
  { name := "W", isDone := false, currentBet := 0, totalBets := 1000,
    totalEarnings := 0, rounds := 1, wins := 0, draws := 1, losses := 0,
    busts := 0, stands := 1, cardCounting := false, count := 0 }

/-- Dealer state after the C9 witness round (hand cleared by the engine). -/
def c9wDealer2 : Dealer := { hand := {}, isDone := false, upCard := some card10 }

/-- Witness for C9: a concrete completed stand-and-draw round keeps
`rounds = wins + draws + losses`. -/
theorem round_counter_invariant_witness :
    c9wP2.rounds = c9wP2.wins + c9wP2.draws + c9wP2.losses :=
  round_counter_invariant alwaysStand alwaysStand c9wP c9wDealer c9wDeck 3
    c9wP2 c9wDealer2 c9wDeck (by decide) (by decide)

end Blackjack
